import Mathlib

/-!
# Verification of the firmware core of `esp32c3-embassy`

Shallow embedding of the parts of the repository relevant to the frozen
claims:

* the persistent clock (`esp32c3-embassy/src/clock.rs`): rounded wakeup
  computation, persistence to RTC memory and reconstruction from it;
* the tri-color framebuffer (`waveshare-154bv2-rs/src/buffer.rs`);
* the display transfer protocol (`waveshare-154bv2-rs/src/async.rs`,
  commands from `waveshare-154bv2-rs/src/command.rs`);
* the sensor fallback sample (`esp32c3-embassy/src/domain.rs`,
  `esp32c3-embassy/src/sensor.rs`);
* the retained history buffer and the producer/consumer channel
  (`esp32c3-embassy/src/main.rs`, `esp32c3-embassy/src/display.rs`),
  whose backing data structures live in external crates and are
  modelled from the spec.

Machine integers (`u64`, `i32`, `u8`) are modelled as `Nat`/`Int` with
explicit truncation where overflow matters; fallible operations (panics,
`Result`) are modelled with `Option`/`Except`.
-/

namespace Esp32

/-! ## Persistent clock — `esp32c3-embassy/src/clock.rs`

`embassy_time::Duration` values reaching `next_rounded_wakeup` are whole
seconds (`Duration::from_secs(self.now_as_epoch())` and the constant
sampling period), so durations are modelled as their second count, a `Nat`.
The monotonic uptime `Instant::now().as_secs()` is passed explicitly as a
`uptime` argument wherever the source reads it.
-/

/-- Embeds `fn next_rounded_wakeup(now: Duration, period: Duration) -> Duration`:
`Duration::from_secs((then.as_secs() / period.as_secs()) * period.as_secs())`
where `then = now + period`.  The `u64` division panics when
`period.as_secs() == 0`; the panic is modelled as `none`. -/
def next_rounded_wakeup (now period : Nat) : Option Nat :=
  if period = 0 then none
  else some ((now + period) / period * period)

/-- Embeds `fn duration_to_next_rounded_wakeup(now, period) -> Duration`:
`next_rounded_wakeup(now, period) - now` (the subtraction cannot
underflow because the rounded instant is never below `now`). -/
def duration_to_next_rounded_wakeup (now period : Nat) : Option Nat :=
  (next_rounded_wakeup now period).map (fun t => t - now)

/-- Embeds `struct Clock { boot_time: u64, offset: UtcOffset }`; the offset is
modelled by its whole-second count. -/
structure Clock where
  boot_time : Nat
  offset : Int
deriving DecidableEq, Repr

/-- Embeds `static mut BOOT_TIME: (u64, i32)` — the retained clock state in RTC
fast memory: epoch seconds and offset seconds. -/
structure BootTime where
  epoch : Nat
  offset_in_seconds : Int
deriving DecidableEq, Repr

/-- Modelled from the time crate: `UtcOffset::from_whole_seconds(seconds)`
succeeds exactly when the offset lies in `-25:59:59 ..= +25:59:59`,
i.e. `-93599 ≤ seconds ≤ 93599`. -/
def UtcOffset.from_whole_seconds (s : Int) : Option Int :=
  if -93599 ≤ s ∧ s ≤ 93599 then some s else none

/-- Embeds `Clock::new(current_time, offset)`: `boot_time = current_time -
Instant::now().as_secs()`; the `u64` subtraction is modelled as truncated
`Nat` subtraction (underflow cannot occur at the call sites, where the
uptime is below the epoch). -/
def Clock.new (current_time uptime : Nat) (offset : Int) : Clock :=
  { boot_time := current_time - uptime, offset := offset }

/-- Embeds `Clock::now_as_epoch()`: `boot_time + Instant::now().as_secs()`. -/
def Clock.now_as_epoch (c : Clock) (uptime : Nat) : Nat :=
  c.boot_time + uptime

/-- Embeds `Clock::from_rtc_memory()`: reads `BOOT_TIME`, validates the offset,
and returns `None` when the stored epoch is the cold-boot sentinel `0`. -/
def Clock.from_rtc_memory (bt : BootTime) (uptime : Nat) : Option Clock :=
  let offset := UtcOffset.from_whole_seconds bt.offset_in_seconds
  if bt.epoch = 0 then none
  else offset.map fun o => Clock.new bt.epoch uptime o

/-- Embeds `Clock::save_to_rtc_memory(expected_sleep_duration)`: stores
`(now_as_epoch() + expected_sleep_duration.as_secs(), offset)`. -/
def Clock.save_to_rtc_memory (c : Clock) (uptime sleep_secs : Nat) : BootTime :=
  { epoch := c.now_as_epoch uptime + sleep_secs
    offset_in_seconds := c.offset }

/-- Claim C1's own words, applied to a candidate result `v`: `v` is an
exact multiple of `P` and the smallest such multiple `≥ T`. -/
def isLeastMultipleGE (P T v : Nat) : Prop :=
  v % P = 0 ∧ T ≤ v ∧ ∀ w, w % P = 0 → T ≤ w → v ≤ w

/-- The corrected characterisation: `v` is an exact multiple of `P` and
the smallest such multiple strictly greater than `T`. -/
def isLeastMultipleGT (P T v : Nat) : Prop :=
  v % P = 0 ∧ T < v ∧ ∀ w, w % P = 0 → T < w → v ≤ w

/-! ## Tri-color framebuffer — `waveshare-154bv2-rs/src/buffer.rs`

The buffer is generic over `WIDTH`, `HEIGHT` and `BYTE_SIZE` in the
source; it is instantiated (type `Epd1in54Buffer`, and the `async.rs`
driver) only at `WIDTH = HEIGHT = 200`, `BYTE_SIZE = 5000`, which the
embedding fixes.  The `[u8; BYTE_SIZE]` planes are modelled as
`List Nat` of bytes; pixel coordinates are `i32`, modelled as `Int`. -/

/-- Screen width in pixels. -/
def WIDTH : Nat := 200

/-- Screen height in pixels. -/
def HEIGHT : Nat := 200

/-- Plane size in bytes. -/
def BYTE_SIZE : Nat := 5000

/-- Embeds `enum Color` from `waveshare-154bv2-rs/src/color.rs`. -/
inductive Color where
  | Black
  | Chromatic
  | White
  | Transparent
deriving DecidableEq, Repr

/-- Embeds `enum Rotation`. -/
inductive Rotation where
  | Rotate0
  | Rotate90
  | Rotate180
  | Rotate270
deriving DecidableEq, Repr

/-- Embeds `struct Buffer { rotation, black, chromatic }`. -/
structure Buffer where
  rotation : Rotation
  black : List Nat
  chromatic : List Nat
deriving DecidableEq, Repr

/-- Embeds `Buffer::new()`: rotation `Rotate0`, both planes filled with `255`. -/
def Buffer.new : Buffer :=
  { rotation := Rotation.Rotate0
    black := List.replicate BYTE_SIZE 255
    chromatic := List.replicate BYTE_SIZE 255 }

/-- Embeds `Buffer::set_rotation(rotation)`. -/
def Buffer.set_rotation (buf : Buffer) (r : Rotation) : Buffer :=
  { buf with rotation := r }

/-- Embeds `fn get_bit_index(x, y) = x as usize + y as usize * WIDTH`. -/
def get_bit_index (x y : Int) : Nat :=
  x.toNat + y.toNat * WIDTH

/-- Embeds `fn get_index_and_offset(x, y)`: byte index `bit_index >> 3` and bit
offset `bit_index & 0b111`. -/
def get_index_and_offset (x y : Int) : Nat × Nat :=
  let bit_index := get_bit_index x y
  (bit_index >>> 3, bit_index &&& 7)

/-- The bounds filter at the head of `draw_iter`:
`x >= 0 && x < WIDTH as i32 && y >= 0 && y < HEIGHT as i32`. -/
def inBoundsB (x y : Int) : Bool :=
  decide (0 ≤ x) && decide (x < (WIDTH : Int))
    && decide (0 ≤ y) && decide (y < (HEIGHT : Int))

/-- The body of `draw_iter` for one pixel: the bounds filter, the
`index >= BYTE_SIZE || offset >= 8` guard, and the per-color plane
update.  `!mask` on `u8` is `255 ^^^ mask`; the `| (0 << offset)` and
`| (1 << offset)` terms are kept as in the source. -/
def drawPixel (buf : Buffer) (p : Int × Int) (color : Color) : Buffer :=
  if inBoundsB p.1 p.2 then
    let index := (get_index_and_offset p.1 p.2).1
    let offset := (get_index_and_offset p.1 p.2).2
    if BYTE_SIZE ≤ index ∨ 8 ≤ offset then buf
    else
      let offset := 8 - offset - 1
      let mask : Nat := 1 <<< offset
      let reverse_mask : Nat := 255 ^^^ mask
      match color with
      | Color.Black =>
          let original := buf.black.getD index 0
          { buf with black := buf.black.set index ((original &&& reverse_mask) ||| (0 <<< offset)) }
      | Color.Chromatic =>
          let original := buf.chromatic.getD index 0
          { buf with chromatic := buf.chromatic.set index ((original &&& reverse_mask) ||| (0 <<< offset)) }
      | Color.White =>
          let originalB := buf.black.getD index 0
          let originalC := buf.chromatic.getD index 0
          { buf with black := buf.black.set index ((originalB &&& reverse_mask) ||| (1 <<< offset)),
                     chromatic := buf.chromatic.set index ((originalC &&& reverse_mask) ||| (1 <<< offset)) }
      | Color.Transparent => buf
  else buf

/-- Embeds `Buffer::draw_iter`: fold the per-pixel update over the pixel list. -/
def draw_iter (buf : Buffer) (pixels : List ((Int × Int) × Color)) : Buffer :=
  pixels.foldl (fun b pc => drawPixel b pc.1 pc.2) buf

/-- Reading back the bit-plane bit at a computed `(index, offset)` pair:
the source stores the pixel in bit `8 - offset - 1` of byte `index`. -/
def planeBit (plane : List Nat) (index offset : Nat) : Nat :=
  (plane.getD index 0 >>> (8 - offset - 1)) &&& 1

/-! ## Display transfer — `waveshare-154bv2-rs/src/async.rs`

The protocol is modelled by the trace of bus interactions it produces:
`send_command` (DC line low, one opcode byte) and `send_data` (DC line
high, payload bytes).  Opcodes are from `waveshare-154bv2-rs/src/command.rs`. -/

/-- Command for write RAM black (`0x24`). -/
def WRITE_RAM_BLACK : Nat := 0x24

/-- Command for write RAM chromatic (`0x26`). -/
def WRITE_RAM_CHROMATIC : Nat := 0x26

/-- Command for display update control 2 (`0x22`). -/
def DISPLAY_UPDATE_CONTROL_2 : Nat := 0x22

/-- Command for master activation (`0x20`). -/
def MASTER_ACTIVATION : Nat := 0x20

/-- Embeds `const LINEWIDTH: usize = WIDTH / 8`. -/
def LINEWIDTH : Nat := WIDTH / 8

/-- One bus interaction of the driver. -/
inductive SpiEvent where
  | command (b : Nat)
  | data (bytes : List Nat)
deriving DecidableEq, Repr

/-- Embeds `!chromatic` on a `u8`: the 8-bit bitwise complement. -/
def invertByte (b : Nat) : Nat := 255 ^^^ (b % 256)

/-- The payload built by `transfer_chromatic`: a `HEIGHT * LINEWIDTH`
byte buffer initialised to `0x00`, zipped with the chromatic plane, each
zipped byte overwritten with the complement of the plane byte (bytes
beyond the plane's length keep the `0x00` initialiser). -/
def transfer_chromatic_payload (chromatic : List Nat) : List Nat :=
  (List.range (HEIGHT * LINEWIDTH)).map fun i =>
    if i < chromatic.length then invertByte (chromatic.getD i 0) else 0

/-- Embeds `Display::transfer_chromatic(chromatic)`. -/
def transfer_chromatic (chromatic : List Nat) : List SpiEvent :=
  [SpiEvent.command WRITE_RAM_CHROMATIC,
   SpiEvent.data (transfer_chromatic_payload chromatic)]

/-- Embeds `Display::transfer_black(black)`: the plane bytes are sent unchanged. -/
def transfer_black (black : List Nat) : List SpiEvent :=
  [SpiEvent.command WRITE_RAM_BLACK, SpiEvent.data black]

/-- Embeds `Display::refresh()`: display-update-control-2 with waveform `0xf7`,
then master activation, then wait-until-idle (a busy-pin wait, which
produces no bus bytes). -/
def refresh : List SpiEvent :=
  [SpiEvent.command DISPLAY_UPDATE_CONTROL_2, SpiEvent.data [0xf7],
   SpiEvent.command MASTER_ACTIVATION]

/-- Embeds `Display::draw_buffer(buffer)`: transfer the black plane, then the
chromatic plane, then refresh. -/
def draw_buffer (buf : Buffer) : List SpiEvent :=
  transfer_black buf.black ++ transfer_chromatic buf.chromatic ++ refresh

/-! ## Sensor fallback sample — `esp32c3-embassy/src/domain.rs` and
`esp32c3-embassy/src/sensor.rs`

`Sample::random` draws three `u32` values from the hardware random
number generator, scales each into a physical range and wraps them in
unit-carrying types.  The `f32` arithmetic is modelled as exact rational
arithmetic; the three `rng.random()` outputs are passed explicitly. -/

/-- Embeds `struct Sample`: temperature (°C), relative humidity (%), pressure
(hPa), each recorded in the declared display unit. -/
structure Sample where
  temperature : ℚ
  humidity : ℚ
  pressure : ℚ
deriving DecidableEq, Repr

/-- Embeds `u32::MAX`. -/
def U32_MAX : Nat := 4294967295

/-- Embeds `Sample::random(rng)`: each seed is `rng.random() as f32 / u32::MAX
as f32`, then scaled as in the source:
temperature `seed * (30 - 15) + 15`, humidity `seed * (80 - 20) + 20`,
pressure `seed * (1010 - 990) + 990`. -/
def Sample.random (r1 r2 r3 : Nat) : Sample :=
  let temperature_seed : ℚ := (r1 : ℚ) / (U32_MAX : ℚ)
  let humidity_seed : ℚ := (r2 : ℚ) / (U32_MAX : ℚ)
  let pressure_seed : ℚ := (r3 : ℚ) / (U32_MAX : ℚ)
  { temperature := temperature_seed * (30 - 15) + 15
    humidity := humidity_seed * (80 - 20) + 20
    pressure := pressure_seed * (1010 - 990) + 990 }

/-- Embeds `bme280_rs::Sample`: every measurement is optional. -/
structure Bme280Sample where
  temperature : Option ℚ
  humidity : Option ℚ
  pressure : Option ℚ
deriving DecidableEq, Repr

/-- Embeds `domain::Error`. -/
inductive DomainError where
  | MissingMeasurement
deriving DecidableEq, Repr

/-- Embeds `TryFrom<Bme280Sample> for Sample`: all three measurements must be
present, otherwise `MissingMeasurement`. -/
def Sample.try_from (s : Bme280Sample) : Except DomainError Sample :=
  match s.temperature with
  | none => Except.error DomainError.MissingMeasurement
  | some t =>
    match s.humidity with
    | none => Except.error DomainError.MissingMeasurement
    | some h =>
      match s.pressure with
      | none => Except.error DomainError.MissingMeasurement
      | some p => Except.ok { temperature := t, humidity := h, pressure := p }

/-- Embeds `sensor::SensorError`, generic over the clock and bus error types. -/
inductive SensorTaskError (κ ε : Type) where
  | Clock (e : κ)
  | Domain (e : DomainError)
  | I2c (e : ε)

/-- Embeds `sample_and_send`: read the clock (propagating its error with `?`),
read the sensor and convert, and on any sensor-read or conversion
failure substitute `Sample::random`; the resulting reading is sent on
the channel, modelled here as the returned pair. -/
def sample_and_send {κ ε τ : Type} (clock_now : Except κ τ)
    (sensor_result : Except ε Bme280Sample) (r1 r2 r3 : Nat) :
    Except (SensorTaskError κ ε) (τ × Sample) :=
  match clock_now with
  | Except.error e => Except.error (SensorTaskError.Clock e)
  | Except.ok now =>
    let sample_result : Except (SensorTaskError κ ε) Sample :=
      match sensor_result with
      | Except.error e => Except.error (SensorTaskError.I2c e)
      | Except.ok raw =>
        match Sample.try_from raw with
        | Except.error e => Except.error (SensorTaskError.Domain e)
        | Except.ok s => Except.ok s
    let sample := match sample_result with
      | Except.ok s => s
      | Except.error _ => Sample.random r1 r2 r3
    Except.ok (now, sample)

/-! ## Retained history — `static HISTORY` in `esp32c3-embassy/src/main.rs`,
appended to by `update_task` in `esp32c3-embassy/src/display.rs`

The backing type `heapless::HistoryBuffer<(OffsetDateTime, Sample), 96>`
is an external crate, so its `write` operation is modelled from the
spec.  The retained elements are kept in arrival order, most recent
last. -/

/-- The capacity of `HISTORY`: `HistoryBuffer<_, 96>`. -/
def HISTORY_CAPACITY : Nat := 96

/-- Modelled from the spec: `HistoryBuffer::write` appends the new
element; when the buffer already holds `HISTORY_CAPACITY` elements it
overwrites (drops) the oldest.  Insertion always succeeds. -/
def historyWrite {α : Type} (h : List α) (x : α) : List α :=
  if h.length < HISTORY_CAPACITY then h ++ [x] else h.drop 1 ++ [x]

/-- Writing a whole sequence of readings, oldest first, as the display
task does one reading at a time. -/
def historyWriteAll {α : Type} (h : List α) (xs : List α) : List α :=
  xs.foldl historyWrite h

/-! ## Producer/consumer channel — `static CHANNEL` in
`esp32c3-embassy/src/main.rs`

`embassy_sync::channel::Channel<NoopRawMutex, Reading, 3>` is an
external crate; the spec's description — a bounded FIFO of capacity 3
where `send` suspends the producer while the channel is full and
`receive` suspends the consumer while it is empty — is modelled as a
guarded transition system: a `send` step is enabled only when fewer than
3 readings are queued, a `receive` step only when the queue is
non-empty.  The state records the full histories of sent and received
readings so delivery can be compared with sends. -/

/-- The channel capacity: `Channel<NoopRawMutex, Reading, 3>`. -/
def CHANNEL_CAPACITY : Nat := 3

/-- A channel state: everything ever sent, the queued in-flight
readings (oldest first), and everything received, in order. -/
structure ChannelState (α : Type) where
  sent : List α
  queued : List α
  received : List α
deriving DecidableEq, Repr

/-- Modelled from the spec: one step of the bounded channel.  `send`
appends to the queue and is enabled only while the queue holds fewer
than `CHANNEL_CAPACITY` readings (a producer facing a full queue stays
suspended); `receive` removes the oldest queued reading and is enabled
only while the queue is non-empty. -/
inductive ChannelStep {α : Type} : ChannelState α → ChannelState α → Prop where
  | send (s : ChannelState α) (r : α)
      (hfull : s.queued.length < CHANNEL_CAPACITY) :
      ChannelStep s ⟨s.sent ++ [r], s.queued ++ [r], s.received⟩
  | receive (s : ChannelState α) (r : α) (rest : List α)
      (hq : s.queued = r :: rest) :
      ChannelStep s ⟨s.sent, rest, s.received ++ [r]⟩

/-- States reachable from the freshly constructed (empty) channel. -/
def ChannelReachable {α : Type} (s : ChannelState α) : Prop :=
  Relation.ReflTransGen ChannelStep ⟨[], [], []⟩ s

/-! ## Theorems -/

theorem next_rounded_wakeup_bounds (T P : Nat) (hP : 0 < P) :
    T < (T + P) / P * P ∧ (T + P) / P * P ≤ T + P := by
  constructor
  · have h1 := Nat.div_add_mod (T + P) P
    have h2 := Nat.mod_lt (T + P) hP
    have h3 : P * ((T + P) / P) = (T + P) / P * P := Nat.mul_comm _ _
    omega
  · exact Nat.div_mul_le_self (T + P) P

theorem next_rounded_wakeup_least (T P : Nat) (hP : 0 < P) :
    isLeastMultipleGT P T ((T + P) / P * P) := by
  refine ⟨Nat.mul_mod_left _ _, (next_rounded_wakeup_bounds T P hP).1, ?_⟩
  intro w hw hTw
  have hdvd : P ∣ w := Nat.dvd_of_mod_eq_zero hw
  have hwq : w / P * P = w := Nat.div_mul_cancel hdvd
  have hlt : (T + P) / P < w / P + 1 := by
    rw [Nat.div_lt_iff_lt_mul hP]
    have hexp : (w / P + 1) * P = w + P := by
      rw [Nat.add_mul, Nat.one_mul, hwq]
    omega
  calc (T + P) / P * P ≤ w / P * P :=
        Nat.mul_le_mul_right P (Nat.lt_succ_iff.mp hlt)
    _ = w := hwq

/-- C1 counterexample: at the wall time `T = 60` with period `P = 60`,
the smallest multiple of `P` that is `≥ T` is `60` itself, but
`next_rounded_wakeup` returns `120`; the claim's "smallest instant ≥ T"
characterisation is false when `T` is itself an exact multiple of `P`. -/
theorem C1_rounded_wakeup_counterexample :
    next_rounded_wakeup 60 60 = some 120 ∧ ¬ isLeastMultipleGE 60 60 120 := by
  refine ⟨by decide, ?_⟩
  rintro ⟨-, -, hmin⟩
  have h := hmin 60 (by decide) (by decide)
  omega

/-- C1 (amended): for every wall time `T` (whole seconds since the Unix
epoch) and every period `P` of at least one second,
`next_rounded_wakeup(T, P)` returns `⌊(T + P) / P⌋ * P`, which is an
exact multiple of `P` and the smallest such multiple strictly greater
than `T`; calling it again at the returned instant yields the next
boundary (`v + P`), never the same one twice. -/
theorem C1_next_rounded_wakeup_correct (T P : Nat) (hP : 0 < P) :
    next_rounded_wakeup T P = some ((T + P) / P * P)
      ∧ isLeastMultipleGT P T ((T + P) / P * P)
      ∧ next_rounded_wakeup ((T + P) / P * P) P
          = some ((T + P) / P * P + P) := by
  refine ⟨?_, next_rounded_wakeup_least T P hP, ?_⟩
  · simp [next_rounded_wakeup, Nat.pos_iff_ne_zero.mp hP]
  · have hmod : ((T + P) / P * P + P) % P = 0 := by
      simp [Nat.add_mod, Nat.mul_mod_left]
    have hdvd : P ∣ ((T + P) / P * P + P) := Nat.dvd_of_mod_eq_zero hmod
    have : ((T + P) / P * P + P) / P * P = (T + P) / P * P + P :=
      Nat.div_mul_cancel hdvd
    simp [next_rounded_wakeup, Nat.pos_iff_ne_zero.mp hP, this]

/-- Witness for C1 at `T = 127`, `P = 60`. -/
theorem C1_next_rounded_wakeup_correct_witness :
    next_rounded_wakeup 127 60 = some ((127 + 60) / 60 * 60)
      ∧ isLeastMultipleGT 60 127 ((127 + 60) / 60 * 60)
      ∧ next_rounded_wakeup ((127 + 60) / 60 * 60) 60
          = some ((127 + 60) / 60 * 60 + 60) :=
  C1_next_rounded_wakeup_correct 127 60 (by decide)

/-- C10: the rounded-wakeup computation divides by `period.as_secs()`.
For every period of at least one whole second it is total and the
returned wait duration `d` satisfies `0 < d ≤ period`, so the producer
always sleeps a positive, bounded time; for a sub-second period
(`period.as_secs() == 0`) the division by zero panics, modelled as
`none`. -/
theorem C10_rounded_wakeup_totality (T P : Nat) :
    (0 < P →
      ∃ d, duration_to_next_rounded_wakeup T P = some d ∧ 0 < d ∧ d ≤ P)
      ∧ (P = 0 → duration_to_next_rounded_wakeup T P = none) := by
  constructor
  · intro hP
    refine ⟨(T + P) / P * P - T, ?_, ?_, ?_⟩
    · simp [duration_to_next_rounded_wakeup, next_rounded_wakeup,
        Nat.pos_iff_ne_zero.mp hP]
    · have h := (next_rounded_wakeup_bounds T P hP).1
      omega
    · have h := (next_rounded_wakeup_bounds T P hP).2
      omega
  · intro hP
    simp [duration_to_next_rounded_wakeup, next_rounded_wakeup, hP]

/-- Witness for C10 at `T = 127`, `P = 60`. -/
theorem C10_rounded_wakeup_totality_witness :
    ∃ d, duration_to_next_rounded_wakeup 127 60 = some d ∧ 0 < d ∧ d ≤ 60 :=
  (C10_rounded_wakeup_totality 127 60).1 (by decide)

/-- C2: persisting a clock whose current epoch time is `W` with expected
sleep duration `D` stores `W + D` (together with the current offset) as
the retained boot epoch, and a clock reconstructed from that retained
state in a fresh session with uptime restarted at `0` reads
`W + D + t` after `t` further elapsed seconds — not `W`. -/
theorem C2_clock_persist_continuity (c : Clock) (u D t : Nat)
    (hoff : -93599 ≤ c.offset ∧ c.offset ≤ 93599)
    (hpos : 0 < c.now_as_epoch u + D) :
    (c.save_to_rtc_memory u D).epoch = c.now_as_epoch u + D
      ∧ ∃ b, Clock.from_rtc_memory (c.save_to_rtc_memory u D) 0 = some b
          ∧ b.now_as_epoch t = c.now_as_epoch u + D + t := by
  refine ⟨rfl, Clock.new (c.now_as_epoch u + D) 0 c.offset, ?_, ?_⟩
  · simp [Clock.from_rtc_memory, Clock.save_to_rtc_memory,
      UtcOffset.from_whole_seconds, hoff.1, hoff.2,
      Nat.pos_iff_ne_zero.mp hpos]
  · simp [Clock.new, Clock.now_as_epoch]

/-- Witness for C2: a clock with `boot_time = 1000000`, offset `+1 h`,
persisted at uptime `5` with sleep duration `300`, read back `7` seconds
into the next session. -/
theorem C2_clock_persist_continuity_witness :
    ((-93599 : Int) ≤ 3600 ∧ (3600 : Int) ≤ 93599)
      ∧ 0 < (Clock.mk 1000000 3600).now_as_epoch 5 + 300
      ∧ (((Clock.mk 1000000 3600).save_to_rtc_memory 5 300).epoch
            = (Clock.mk 1000000 3600).now_as_epoch 5 + 300
          ∧ ∃ b, Clock.from_rtc_memory
                ((Clock.mk 1000000 3600).save_to_rtc_memory 5 300) 0 = some b
              ∧ b.now_as_epoch 7 = (Clock.mk 1000000 3600).now_as_epoch 5 + 300 + 7) :=
  ⟨⟨by decide, by decide⟩, by decide,
    C2_clock_persist_continuity (Clock.mk 1000000 3600) 5 300 7
      ⟨by decide, by decide⟩ (by decide)⟩

/-- C5 counterexample: the retained state `(epoch = 1, offset = 93600)`
has a non-zero epoch, yet `from_rtc_memory` returns `None`, because the
stored offset is outside the range representable by `UtcOffset`. -/
theorem C5_from_rtc_memory_counterexample :
    (1 : Nat) ≠ 0
      ∧ Clock.from_rtc_memory (BootTime.mk 1 93600) 0 = none := by
  refine ⟨by decide, ?_⟩
  simp [Clock.from_rtc_memory, UtcOffset.from_whole_seconds]

/-- C5 (amended): reconstructing the clock from the retained store
returns absent exactly when the retained epoch equals `0` (the cold-boot
sentinel) or the retained offset is outside the representable UTC-offset
range (`-93599 ..= 93599` seconds); for every retained state with a
non-zero epoch and an in-range offset it returns a clock built from the
retained epoch and offset. -/
theorem C5_from_rtc_memory_absent_iff (bt : BootTime) (u : Nat) :
    Clock.from_rtc_memory bt u =
      if bt.epoch = 0
          ∨ ¬(-93599 ≤ bt.offset_in_seconds ∧ bt.offset_in_seconds ≤ 93599)
        then none
        else some (Clock.new bt.epoch u bt.offset_in_seconds) := by
  by_cases h0 : bt.epoch = 0
  · simp [Clock.from_rtc_memory, h0]
  · by_cases hoff : -93599 ≤ bt.offset_in_seconds ∧ bt.offset_in_seconds ≤ 93599
    · simp [Clock.from_rtc_memory, UtcOffset.from_whole_seconds, h0, hoff]
    · simp [Clock.from_rtc_memory, UtcOffset.from_whole_seconds, h0, hoff]

theorem get_index_and_offset_eq (x y : Int) :
    get_index_and_offset x y
      = (get_bit_index x y / 8, get_bit_index x y % 8) := by
  have h7 : (7 : Nat) = 2 ^ 3 - 1 := by norm_num
  simp only [get_index_and_offset, h7, Nat.and_pow_two_sub_one_eq_mod,
    Nat.shiftRight_eq_div_pow]

theorem shiftRight_and_one (n k : Nat) :
    (n >>> k) &&& 1 = if n.testBit k then 1 else 0 := by
  rw [Nat.and_one_is_mod, Nat.shiftRight_eq_div_pow, Nat.testBit_to_div_mod]
  rcases Nat.mod_two_eq_zero_or_one (n / 2 ^ k) with h | h <;> simp [h]

theorem testBit_255 (k : Nat) (h : k < 8) : Nat.testBit 255 k = true := by
  interval_cases k <;> decide

theorem cleared_bit (b k : Nat) (hk : k < 8) :
    (b &&& (255 ^^^ (1 <<< k))).testBit k = false := by
  rw [Nat.one_shiftLeft, Nat.testBit_and, Nat.testBit_xor,
    Nat.testBit_two_pow_self, testBit_255 k hk]
  simp

theorem set_bit (b k : Nat) :
    ((b &&& (255 ^^^ (1 <<< k))) ||| (1 <<< k)).testBit k = true := by
  rw [Nat.one_shiftLeft, Nat.testBit_or, Nat.testBit_two_pow_self]
  simp

theorem getD_set_self (l : List Nat) (i v : Nat) (h : i < l.length) :
    (l.set i v).getD i 0 = v := by
  simp [List.getD_eq_getElem?_getD, List.getElem?_set_self, h]

theorem draw_bounds (x y : Int) (hx0 : 0 ≤ x) (hx : x < 200)
    (hy0 : 0 ≤ y) (hy : y < 200) :
    (get_index_and_offset x y).1 < 5000 ∧ (get_index_and_offset x y).2 < 8 := by
  rw [get_index_and_offset_eq]
  have hxn : x.toNat < 200 := by omega
  have hyn : y.toNat < 200 := by omega
  have hb : get_bit_index x y < 40000 := by
    unfold get_bit_index WIDTH
    omega
  constructor
  · simp only
    omega
  · simp only
    omega

/-- C3: drawing one in-bounds pixel as `Black` clears the black-plane
bit at the computed `(index, offset)` and leaves the chromatic plane
(hence its bit) unchanged; `White` sets both planes' bits to `1`;
`Chromatic` clears only the chromatic-plane bit, leaving the black
plane unchanged; `Transparent` changes nothing. -/
theorem C3_framebuffer_color_encoding (buf : Buffer) (x y : Int)
    (hx0 : 0 ≤ x) (hx : x < 200) (hy0 : 0 ≤ y) (hy : y < 200)
    (hblen : buf.black.length = 5000) (hclen : buf.chromatic.length = 5000) :
    (planeBit (draw_iter buf [((x, y), Color.Black)]).black
        (get_index_and_offset x y).1 (get_index_and_offset x y).2 = 0
      ∧ (draw_iter buf [((x, y), Color.Black)]).chromatic = buf.chromatic)
    ∧ (planeBit (draw_iter buf [((x, y), Color.White)]).black
        (get_index_and_offset x y).1 (get_index_and_offset x y).2 = 1
      ∧ planeBit (draw_iter buf [((x, y), Color.White)]).chromatic
        (get_index_and_offset x y).1 (get_index_and_offset x y).2 = 1)
    ∧ (planeBit (draw_iter buf [((x, y), Color.Chromatic)]).chromatic
        (get_index_and_offset x y).1 (get_index_and_offset x y).2 = 0
      ∧ (draw_iter buf [((x, y), Color.Chromatic)]).black = buf.black)
    ∧ draw_iter buf [((x, y), Color.Transparent)] = buf := by
  obtain ⟨hi, ho⟩ := draw_bounds x y hx0 hx hy0 hy
  have hin : inBoundsB x y = true := by
    simp only [inBoundsB, WIDTH, HEIGHT, Bool.and_eq_true, decide_eq_true_eq]
    omega
  have hguard : ¬(BYTE_SIZE ≤ (get_index_and_offset x y).1
      ∨ 8 ≤ (get_index_and_offset x y).2) := by
    simp only [BYTE_SIZE]
    omega
  have hkb : (8 : Nat) - (get_index_and_offset x y).2 - 1 < 8 := by omega
  have hbl : (get_index_and_offset x y).1 < buf.black.length := by
    rw [hblen]; exact hi
  have hcl : (get_index_and_offset x y).1 < buf.chromatic.length := by
    rw [hclen]; exact hi
  have eBb : (draw_iter buf [((x, y), Color.Black)]).black
      = buf.black.set (get_index_and_offset x y).1
          (buf.black.getD (get_index_and_offset x y).1 0 &&&
            (255 ^^^ (1 <<< (8 - (get_index_and_offset x y).2 - 1)))) := by
    simp [draw_iter, drawPixel, hin, hguard]
  have eBc : (draw_iter buf [((x, y), Color.Black)]).chromatic
      = buf.chromatic := by
    simp [draw_iter, drawPixel, hin, hguard]
  have eWb : (draw_iter buf [((x, y), Color.White)]).black
      = buf.black.set (get_index_and_offset x y).1
          ((buf.black.getD (get_index_and_offset x y).1 0 &&&
              (255 ^^^ (1 <<< (8 - (get_index_and_offset x y).2 - 1)))) |||
            (1 <<< (8 - (get_index_and_offset x y).2 - 1))) := by
    simp [draw_iter, drawPixel, hin, hguard]
  have eWc : (draw_iter buf [((x, y), Color.White)]).chromatic
      = buf.chromatic.set (get_index_and_offset x y).1
          ((buf.chromatic.getD (get_index_and_offset x y).1 0 &&&
              (255 ^^^ (1 <<< (8 - (get_index_and_offset x y).2 - 1)))) |||
            (1 <<< (8 - (get_index_and_offset x y).2 - 1))) := by
    simp [draw_iter, drawPixel, hin, hguard]
  have eCc : (draw_iter buf [((x, y), Color.Chromatic)]).chromatic
      = buf.chromatic.set (get_index_and_offset x y).1
          (buf.chromatic.getD (get_index_and_offset x y).1 0 &&&
            (255 ^^^ (1 <<< (8 - (get_index_and_offset x y).2 - 1)))) := by
    simp [draw_iter, drawPixel, hin, hguard]
  have eCb : (draw_iter buf [((x, y), Color.Chromatic)]).black
      = buf.black := by
    simp [draw_iter, drawPixel, hin, hguard]
  refine ⟨⟨?_, eBc⟩, ⟨?_, ?_⟩, ⟨?_, eCb⟩, ?_⟩
  · rw [planeBit, eBb, getD_set_self _ _ _ hbl, shiftRight_and_one,
      cleared_bit _ _ hkb]
    rfl
  · rw [planeBit, eWb, getD_set_self _ _ _ hbl, shiftRight_and_one, set_bit]
    rfl
  · rw [planeBit, eWc, getD_set_self _ _ _ hcl, shiftRight_and_one, set_bit]
    rfl
  · rw [planeBit, eCc, getD_set_self _ _ _ hcl, shiftRight_and_one,
      cleared_bit _ _ hkb]
    rfl
  · simp only [draw_iter, List.foldl_cons, List.foldl_nil, drawPixel]
    split <;> rfl

/-- Witness for C3 at pixel `(3, 2)` on a fresh buffer. -/
theorem C3_framebuffer_color_encoding_witness :
    Buffer.new.black.length = 5000
      ∧ Buffer.new.chromatic.length = 5000
      ∧ ((planeBit (draw_iter Buffer.new [((3, 2), Color.Black)]).black
            (get_index_and_offset 3 2).1 (get_index_and_offset 3 2).2 = 0
          ∧ (draw_iter Buffer.new [((3, 2), Color.Black)]).chromatic
              = Buffer.new.chromatic)
        ∧ (planeBit (draw_iter Buffer.new [((3, 2), Color.White)]).black
            (get_index_and_offset 3 2).1 (get_index_and_offset 3 2).2 = 1
          ∧ planeBit (draw_iter Buffer.new [((3, 2), Color.White)]).chromatic
            (get_index_and_offset 3 2).1 (get_index_and_offset 3 2).2 = 1)
        ∧ (planeBit (draw_iter Buffer.new [((3, 2), Color.Chromatic)]).chromatic
            (get_index_and_offset 3 2).1 (get_index_and_offset 3 2).2 = 0
          ∧ (draw_iter Buffer.new [((3, 2), Color.Chromatic)]).black
              = Buffer.new.black)
        ∧ draw_iter Buffer.new [((3, 2), Color.Transparent)] = Buffer.new) :=
  ⟨by simp only [Buffer.new, List.length_replicate, BYTE_SIZE], by simp only [Buffer.new, List.length_replicate, BYTE_SIZE],
    C3_framebuffer_color_encoding Buffer.new 3 2 (by decide) (by decide)
      (by decide) (by decide)
      (by simp only [Buffer.new, List.length_replicate, BYTE_SIZE]) (by simp only [Buffer.new, List.length_replicate, BYTE_SIZE])⟩

theorem drawPixel_set_rotation (buf : Buffer) (r : Rotation)
    (p : Int × Int) (c : Color) :
    drawPixel (buf.set_rotation r) p c = (drawPixel buf p c).set_rotation r := by
  cases c <;> simp only [drawPixel, Buffer.set_rotation] <;> split_ifs <;> rfl

/-- C8 (code evaluation): `draw_iter` never reads `self.rotation`, so the
bit stored for a pixel lands at the same `(byte index, bit offset)` in
the planes for every rotation; `set_rotation` has no effect on drawing,
contradicting the claim (and the spec's statement that rotation is
applied at draw time). -/
theorem C8_rotation_never_applied (buf : Buffer) (r : Rotation)
    (pixels : List ((Int × Int) × Color)) :
    (draw_iter (buf.set_rotation r) pixels).black
        = (draw_iter buf pixels).black
      ∧ (draw_iter (buf.set_rotation r) pixels).chromatic
        = (draw_iter buf pixels).chromatic := by
  have h : draw_iter (buf.set_rotation r) pixels
      = (draw_iter buf pixels).set_rotation r := by
    induction pixels generalizing buf with
    | nil => rfl
    | cons pc ps ih =>
        simp only [draw_iter, List.foldl_cons] at *
        rw [drawPixel_set_rotation, ih]
  rw [h]
  exact ⟨rfl, rfl⟩

/-- C4: transferring a framebuffer writes the black plane's bytes
unchanged to the black RAM region and the chromatic plane inverted —
every payload byte of the chromatic write is the 8-bit complement of the
corresponding logical plane byte — and ends with the refresh sequence. -/
theorem C4_display_transfer_inversion (buf : Buffer)
    (hlen : buf.chromatic.length = 5000)
    (hbytes : ∀ b ∈ buf.chromatic, b < 256) :
    draw_buffer buf =
      [SpiEvent.command WRITE_RAM_BLACK, SpiEvent.data buf.black,
       SpiEvent.command WRITE_RAM_CHROMATIC,
       SpiEvent.data (buf.chromatic.map invertByte),
       SpiEvent.command DISPLAY_UPDATE_CONTROL_2, SpiEvent.data [0xf7],
       SpiEvent.command MASTER_ACTIVATION]
      ∧ ∀ k, k < buf.chromatic.length → ∀ i, i < 8 →
          ((buf.chromatic.map invertByte).getD k 0).testBit i
            = ! ((buf.chromatic.getD k 0).testBit i) := by
  constructor
  · have hpayload : transfer_chromatic_payload buf.chromatic
        = buf.chromatic.map invertByte := by
      apply List.ext_getElem
      · simp [transfer_chromatic_payload, HEIGHT, LINEWIDTH, WIDTH, hlen]
      · intro n h1 h2
        have hn : n < 5000 := by
          simpa [transfer_chromatic_payload, HEIGHT, LINEWIDTH, WIDTH] using h1
        have hn' : n < buf.chromatic.length := by omega
        simp [transfer_chromatic_payload, hn', List.getD_eq_getElem _ _ hn']
    simp [draw_buffer, transfer_black, transfer_chromatic, refresh, hpayload]
  · intro k hk i hi
    have hk' : k < (buf.chromatic.map invertByte).length := by
      simpa using hk
    rw [List.getD_eq_getElem _ _ hk', List.getD_eq_getElem _ _ hk,
      List.getElem_map]
    have hb : buf.chromatic[k] < 256 := hbytes _ (List.getElem_mem hk)
    have hmod : buf.chromatic[k] % 256 = buf.chromatic[k] := Nat.mod_eq_of_lt hb
    rw [invertByte, hmod, Nat.testBit_xor, testBit_255 i hi, Bool.true_xor]

/-- Witness for C4 on a fresh buffer. -/
theorem C4_display_transfer_inversion_witness :
    draw_buffer Buffer.new =
      [SpiEvent.command WRITE_RAM_BLACK, SpiEvent.data Buffer.new.black,
       SpiEvent.command WRITE_RAM_CHROMATIC,
       SpiEvent.data (Buffer.new.chromatic.map invertByte),
       SpiEvent.command DISPLAY_UPDATE_CONTROL_2, SpiEvent.data [0xf7],
       SpiEvent.command MASTER_ACTIVATION]
      ∧ ∀ k, k < Buffer.new.chromatic.length → ∀ i, i < 8 →
          ((Buffer.new.chromatic.map invertByte).getD k 0).testBit i
            = ! ((Buffer.new.chromatic.getD k 0).testBit i) :=
  C4_display_transfer_inversion Buffer.new
    (by simp only [Buffer.new, List.length_replicate, BYTE_SIZE])
    (by
      intro b hb
      rw [List.eq_of_mem_replicate hb]
      decide)

theorem seed_bounds (r : Nat) (h : r ≤ U32_MAX) :
    0 ≤ (r : ℚ) / (U32_MAX : ℚ) ∧ (r : ℚ) / (U32_MAX : ℚ) ≤ 1 := by
  have hpos : (0 : ℚ) < (U32_MAX : ℚ) := by
    rw [U32_MAX]
    norm_num
  constructor
  · positivity
  · rw [div_le_one hpos]
    exact_mod_cast h

/-- C6: every synthetic fallback sample lies in the documented ranges
(temperature 15–30 °C, humidity 20–80 %, pressure 990–1010 hPa), and on
every sensor-read or conversion failure the producer emits exactly such
a synthetic sample for that cycle instead of skipping it. -/
theorem C6_sensor_fallback {κ ε τ : Type} (now : τ)
    (sensor_result : Except ε Bme280Sample) (r1 r2 r3 : Nat)
    (h1 : r1 ≤ U32_MAX) (h2 : r2 ≤ U32_MAX) (h3 : r3 ≤ U32_MAX)
    (hfail : (∃ e, sensor_result = Except.error e)
      ∨ ∃ raw, sensor_result = Except.ok raw
          ∧ (raw.temperature = none ∨ raw.humidity = none
              ∨ raw.pressure = none)) :
    sample_and_send (Except.ok (ε := κ) now) sensor_result r1 r2 r3
        = Except.ok (now, Sample.random r1 r2 r3)
      ∧ 15 ≤ (Sample.random r1 r2 r3).temperature
      ∧ (Sample.random r1 r2 r3).temperature ≤ 30
      ∧ 20 ≤ (Sample.random r1 r2 r3).humidity
      ∧ (Sample.random r1 r2 r3).humidity ≤ 80
      ∧ 990 ≤ (Sample.random r1 r2 r3).pressure
      ∧ (Sample.random r1 r2 r3).pressure ≤ 1010 := by
  obtain ⟨hs1l, hs1u⟩ := seed_bounds r1 h1
  obtain ⟨hs2l, hs2u⟩ := seed_bounds r2 h2
  obtain ⟨hs3l, hs3u⟩ := seed_bounds r3 h3
  refine ⟨?_, ?_, ?_, ?_, ?_, ?_, ?_⟩
  · rcases hfail with ⟨e, he⟩ | ⟨raw, hraw, hmiss⟩
    · simp [sample_and_send, he]
    · have htf : ∃ e, Sample.try_from raw = Except.error e := by
        rcases hmiss with h | h | h
        · exact ⟨DomainError.MissingMeasurement, by simp [Sample.try_from, h]⟩
        · rcases hraw' : raw.temperature with - | t
          · exact ⟨DomainError.MissingMeasurement,
              by simp [Sample.try_from, hraw']⟩
          · exact ⟨DomainError.MissingMeasurement,
              by simp [Sample.try_from, hraw', h]⟩
        · rcases hraw' : raw.temperature with - | t
          · exact ⟨DomainError.MissingMeasurement,
              by simp [Sample.try_from, hraw']⟩
          · rcases hraw'' : raw.humidity with - | hmd
            · exact ⟨DomainError.MissingMeasurement,
                by simp [Sample.try_from, hraw', hraw'']⟩
            · exact ⟨DomainError.MissingMeasurement,
                by simp [Sample.try_from, hraw', hraw'', h]⟩
      obtain ⟨e, he⟩ := htf
      simp [sample_and_send, hraw, he]
  · simp only [Sample.random]
    nlinarith
  · simp only [Sample.random]
    nlinarith
  · simp only [Sample.random]
    nlinarith
  · simp only [Sample.random]
    nlinarith
  · simp only [Sample.random]
    nlinarith
  · simp only [Sample.random]
    nlinarith

/-- Witness for C6: an always-failing sensor bus (`error 7`) and the
three rng draws `0`, `12345`, `U32_MAX`. -/
theorem C6_sensor_fallback_witness :
    sample_and_send ((Except.ok 1700000000 : Except Unit Nat))
        ((Except.error 7 : Except Nat Bme280Sample)) 0 12345 U32_MAX
        = Except.ok (1700000000, Sample.random 0 12345 U32_MAX)
      ∧ 15 ≤ (Sample.random 0 12345 U32_MAX).temperature
      ∧ (Sample.random 0 12345 U32_MAX).temperature ≤ 30
      ∧ 20 ≤ (Sample.random 0 12345 U32_MAX).humidity
      ∧ (Sample.random 0 12345 U32_MAX).humidity ≤ 80
      ∧ 990 ≤ (Sample.random 0 12345 U32_MAX).pressure
      ∧ (Sample.random 0 12345 U32_MAX).pressure ≤ 1010 :=
  C6_sensor_fallback 1700000000 (Except.error 7) 0 12345 U32_MAX
    (by decide) (by decide) (by decide) (Or.inl ⟨7, rfl⟩)

theorem historyWriteAll_closed_form {α : Type} (xs acc : List α)
    (hacc : acc.length ≤ HISTORY_CAPACITY) :
    historyWriteAll acc xs
      = (acc ++ xs).drop (acc.length + xs.length - HISTORY_CAPACITY) := by
  simp only [HISTORY_CAPACITY] at *
  induction xs generalizing acc with
  | nil => simp [historyWriteAll, Nat.sub_eq_zero_of_le hacc]
  | cons x xs ih =>
      have hstep : historyWrite acc x
          = (acc ++ [x]).drop (acc.length + 1 - 96) := by
        by_cases h : acc.length < 96
        · rw [historyWrite, if_pos (by simpa [HISTORY_CAPACITY] using h),
            Nat.sub_eq_zero_of_le (by omega), List.drop_zero]
        · have h1 : acc.length + 1 - 96 = 1 := by omega
          rw [historyWrite,
            if_neg (by simpa [HISTORY_CAPACITY] using h), h1,
            List.drop_append_of_le_length (by omega)]
      have hslen : (historyWrite acc x).length ≤ 96 := by
        rw [hstep, List.length_drop]
        simp only [List.length_append, List.length_cons, List.length_nil]
        omega
      have hall : historyWriteAll acc (x :: xs)
          = historyWriteAll (historyWrite acc x) xs := rfl
      rw [hall, ih _ hslen, hstep, List.length_drop]
      rw [← List.drop_append_of_le_length (by simp; omega)]
      rw [List.drop_drop]
      have hassoc : (acc ++ [x]) ++ xs = acc ++ x :: xs := by simp
      rw [hassoc]
      congr 1
      simp only [List.length_append, List.length_cons, List.length_nil]
      omega

/-- C7: the history is a fixed-capacity ring buffer of capacity 96:
starting from the empty history, after any sequence of writes the
length never exceeds 96 and exactly the most recent 96 readings are
retained in arrival order; in particular appending 97 readings leaves
length 96 with the oldest reading evicted. -/
theorem C7_history_bounded_overwrite {α : Type} (xs : List α) :
    (historyWriteAll ([] : List α) xs).length ≤ 96
      ∧ historyWriteAll ([] : List α) xs = xs.drop (xs.length - 96)
      ∧ (xs.length = 97 →
          (historyWriteAll ([] : List α) xs).length = 96
            ∧ historyWriteAll ([] : List α) xs = xs.drop 1) := by
  have h := historyWriteAll_closed_form xs ([] : List α)
    (by simp [HISTORY_CAPACITY])
  simp only [List.nil_append, List.length_nil, Nat.zero_add,
    HISTORY_CAPACITY] at h
  refine ⟨?_, h, ?_⟩
  · rw [h, List.length_drop]
    omega
  · intro h97
    constructor
    · rw [h, List.length_drop]
      omega
    · rw [h, h97]

/-- Witness for C7 with the 97 readings `0, 1, …, 96`. -/
theorem C7_history_bounded_overwrite_witness :
    (historyWriteAll ([] : List Nat) (List.range 97)).length ≤ 96
      ∧ historyWriteAll ([] : List Nat) (List.range 97)
          = (List.range 97).drop ((List.range 97).length - 96)
      ∧ ((List.range 97).length = 97 →
          (historyWriteAll ([] : List Nat) (List.range 97)).length = 96
            ∧ historyWriteAll ([] : List Nat) (List.range 97)
                = (List.range 97).drop 1) :=
  C7_history_bounded_overwrite (List.range 97)

theorem channel_invariant_step {α : Type} {s t : ChannelState α}
    (hinv : s.received ++ s.queued = s.sent
      ∧ s.queued.length ≤ CHANNEL_CAPACITY)
    (hstep : ChannelStep s t) :
    t.received ++ t.queued = t.sent ∧ t.queued.length ≤ CHANNEL_CAPACITY := by
  obtain ⟨hfifo, hlen⟩ := hinv
  simp only [CHANNEL_CAPACITY] at *
  cases hstep with
  | send r hfull =>
      refine ⟨?_, ?_⟩
      · simp only
        rw [← List.append_assoc, hfifo]
      · simp only [List.length_append, List.length_cons, List.length_nil]
        simp only [CHANNEL_CAPACITY] at hfull
        omega
  | receive r rest hq =>
      refine ⟨?_, ?_⟩
      · simp only
        rw [← hfifo, hq]
        simp
      · have hq1 : s.queued.length = rest.length + 1 := by rw [hq]; simp
        simp only
        omega

/-- C9: in every state reachable from the empty channel, the receive
history followed by the queued readings equals the send history — so
under capacity pressure no reading is ever dropped or duplicated and
readings are received exactly in send order — and the queue never holds
more than 3 readings.  Blocking is represented by the enabling guards of
the transition system: `send` is enabled only when fewer than 3 readings
are queued, `receive` only when the queue is non-empty. -/
theorem C9_channel_fifo_bounded {α : Type} (s : ChannelState α)
    (h : ChannelReachable s) :
    s.received ++ s.queued = s.sent ∧ s.queued.length ≤ 3 := by
  induction h with
  | refl => exact ⟨rfl, by simp⟩
  | tail hab hbc ih => exact channel_invariant_step ih hbc

/-- Witness for C9: the state after one `send` of the reading `5`. -/
theorem C9_channel_fifo_bounded_witness :
    (ChannelState.mk ([] : List Nat) [] []).received
          ++ (ChannelState.mk ([] : List Nat) [] []).queued
        = (ChannelState.mk ([] : List Nat) [] []).sent
      ∧ (ChannelState.mk ([] : List Nat) [] []).queued.length ≤ 3 :=
  C9_channel_fifo_bounded (ChannelState.mk [] [] [])
    Relation.ReflTransGen.refl

end Esp32
